import Mathlib

/-!
Verification development for the story-generation pipeline of the
storybook-assistant-plugin repository.

The Python sources under `skills/story-generation/scripts/` are shallowly
embedded as executable Lean definitions:
  * `parse_component.py`  — component parsing and classification,
  * `detect_variants.py`  — variant inference from prop metadata,
  * `generate_story.py`   — story emission and control-type inference.

Pure string manipulation (Python `str` methods, `pathlib` suffix/stem
computation, and the handful of backtracking-free regular expressions used
by the sources) is modelled character-by-character.  The regular-expression
scans that extract raw prop matches from file text (the `interface …Props`
block scan, `defineProps` scans, and the Svelte `export let` scan) are
abstracted as inputs to the embedding: each parser receives the list of raw
regex matches and the embedding models, faithfully to the source, how those
matches are converted into `PropDefinition` records.  File-system access is
modelled explicitly: template lookup is a function from template name to
optional content, and file writes are returned as an explicit list.
-/

/-- Python whitespace characters recognised by `str.split`, `str.strip`,
and the regex class `\s` (ASCII range, which is all the sources use). -/
def pyIsSpace (c : Char) : Bool :=
  c = ' ' ∨ c = '\t' ∨ c = '\n' ∨ c = '\x0d' ∨ c = '\x0b' ∨ c = '\x0c'

/-- Python `str.lower()` (ASCII). -/
def pyLower (s : String) : String :=
  String.mk (s.toList.map Char.toLower)

/-- Python `str.capitalize()`: first character upper-cased, rest lower-cased. -/
def pyCapitalize (s : String) : String :=
  match s.toList with
  | [] => ""
  | c :: rest => String.mk (c.toUpper :: rest.map Char.toLower)

/-- Python `str.strip()`: drop leading and trailing whitespace. -/
def pyStrip (s : String) : String :=
  String.mk (((s.toList.dropWhile pyIsSpace).reverse.dropWhile pyIsSpace).reverse)

/-- Python `needle in hay` substring test. -/
def containsSubChars (needle : List Char) : List Char → Bool
  | [] => needle.isEmpty
  | c :: rest => needle.isPrefixOf (c :: rest) || containsSubChars needle rest

/-- Python `needle in hay` substring test on strings. -/
def containsSub (needle hay : String) : Bool :=
  containsSubChars needle.toList hay.toList

/-- Python `str.startswith`. -/
def pyStartsWith (pre s : String) : Bool :=
  pre.toList.isPrefixOf s.toList

/-- Python `str.endswith`. -/
def pyEndsWith (suf s : String) : Bool :=
  suf.toList.isSuffixOf s.toList

/-- Python `str.split(sep)` for a one-character separator
(`"a||b".split("|") = ["a","","b"]`). -/
def splitChar (sep : Char) : List Char → List (List Char)
  | [] => [[]]
  | c :: rest =>
    if c = sep then [] :: splitChar sep rest
    else
      match splitChar sep rest with
      | g :: gs => (c :: g) :: gs
      | [] => [[c]]

/-- Python `str.split()` (split on whitespace runs, dropping empty parts),
written with explicit fuel so that it reduces in the kernel; the fuel is
instantiated with the length of the input, which always suffices because
every recursive call consumes at least one character. -/
def splitWsAux : Nat → List Char → List String
  | 0, _ => []
  | _ + 1, [] => []
  | fuel + 1, c :: rest =>
    if pyIsSpace c then splitWsAux fuel rest
    else
      let w := rest.takeWhile (fun d => !pyIsSpace d)
      String.mk (c :: w) :: splitWsAux fuel (rest.drop w.length)

/-- Python `str.split()`. -/
def pySplitWs (s : String) : List String :=
  splitWsAux s.toList.length s.toList

/-- The single-quote character (used instead of a character literal). -/
def squote : Char := Char.ofNat 39

/-- The double-quote character (used instead of a character literal). -/
def dquote : Char := Char.ofNat 34

def isAnyQuote (c : Char) : Bool := c = squote ∨ c = dquote

/-- Model of `re.findall` for the pattern `["\']([^"\']+)["\']`: non-overlapping, left-to-right
matches of a quote (either kind), one or more non-quote characters, and a
closing quote (either kind).  Fuel-based for kernel reducibility; fuel is
the input length, which suffices since every step consumes a character. -/
def scanQuotedAux : Nat → List Char → List String
  | 0, _ => []
  | _ + 1, [] => []
  | fuel + 1, c :: rest =>
    if isAnyQuote c then
      let body := rest.takeWhile (fun d => !isAnyQuote d)
      match rest.drop body.length with
      | d :: rest2 =>
        if body.isEmpty then scanQuotedAux fuel rest
        else if isAnyQuote d then String.mk body :: scanQuotedAux fuel rest2
        else scanQuotedAux fuel rest
      | [] => scanQuotedAux fuel rest
    else scanQuotedAux fuel rest

/-- All `["\']([^"\']+)["\']` matches in a string. -/
def scanQuoted (s : String) : List String :=
  scanQuotedAux s.toList.length s.toList

/-- Model of `re.findall` for the pattern `'([^']+)'`: non-overlapping single-quoted literals. -/
def scanSingleQuotedAux : Nat → List Char → List String
  | 0, _ => []
  | _ + 1, [] => []
  | fuel + 1, c :: rest =>
    if c = squote then
      let body := rest.takeWhile (fun d => d ≠ squote)
      match rest.drop body.length with
      | d :: rest2 =>
        if body.isEmpty then scanSingleQuotedAux fuel rest
        else if d = squote then String.mk body :: scanSingleQuotedAux fuel rest2
        else scanSingleQuotedAux fuel rest
      | [] => scanSingleQuotedAux fuel rest
    else scanSingleQuotedAux fuel rest

/-- All `'([^']+)'` matches in a string. -/
def scanSingleQuoted (s : String) : List String :=
  scanSingleQuotedAux s.toList.length s.toList

/-- Match a literal character sequence at the head of the input, returning
the remainder on success. -/
def dropLiteral : List Char → List Char → Option (List Char)
  | [], l => some l
  | _ :: _, [] => none
  | p :: ps, c :: cs => if p = c then dropLiteral ps cs else none

/-- Match the regex fragment `\s+` at the head of the input (one or more
whitespace characters, greedily). -/
def dropWs1 (l : List Char) : Option (List Char) :=
  match l with
  | [] => none
  | c :: rest => if pyIsSpace c then some (rest.dropWhile pyIsSpace) else none

/-- The regex class `[A-Za-z0-9_]`. -/
def isWordCharAZ (c : Char) : Bool :=
  c.isUpper ∨ c.isLower ∨ c.isDigit ∨ c = '_'

/-- Match `[A-Z][A-Za-z0-9_]*` at the head of the input (greedily),
returning the captured identifier. -/
def matchUpperIdent (l : List Char) : Option String :=
  match l with
  | [] => none
  | c :: rest =>
    if c.isUpper then some (String.mk (c :: rest.takeWhile isWordCharAZ)) else none

/-- Match `function\s+([A-Z][A-Za-z0-9_]*)` at the head of the input. -/
def tryFuncTail (l : List Char) : Option String :=
  (dropLiteral "function".toList l).bind fun r =>
    (dropWs1 r).bind matchUpperIdent

/-- Match `const\s+([A-Z][A-Za-z0-9_]*)\s*[=:]` at the head of the input. -/
def tryConstAt (l : List Char) : Option String :=
  (dropLiteral "const".toList l).bind fun r1 =>
    (dropWs1 r1).bind fun r2 =>
      match r2 with
      | [] => none
      | c :: rest =>
        if c.isUpper then
          let idTail := rest.takeWhile isWordCharAZ
          match (rest.drop idTail.length).dropWhile pyIsSpace with
          | [] => none
          | d :: _ =>
            if d = '=' ∨ d = ':' then some (String.mk (c :: idTail)) else none
        else none

/-- Match `export\s+(?:default\s+)?function\s+([A-Z][A-Za-z0-9_]*)` at the
head of the input. -/
def tryExportFuncAt (l : List Char) : Option String :=
  (dropLiteral "export".toList l).bind fun r1 =>
    (dropWs1 r1).bind fun r2 =>
      match (dropLiteral "default".toList r2).bind dropWs1 with
      | some r3 => tryFuncTail r3
      | none => tryFuncTail r2

/-- Model of `re.search` for `function\s+([A-Z][A-Za-z0-9_]*)`: leftmost match. -/
def searchFunctionAux : List Char → Option String
  | [] => none
  | c :: rest =>
    match tryFuncTail (c :: rest) with
    | some s => some s
    | none => searchFunctionAux rest

def searchFunction (content : String) : Option String :=
  searchFunctionAux content.toList

/-- Model of `re.search` for `const\s+([A-Z][A-Za-z0-9_]*)\s*[=:]`: leftmost match. -/
def searchConstAux : List Char → Option String
  | [] => none
  | c :: rest =>
    match tryConstAt (c :: rest) with
    | some s => some s
    | none => searchConstAux rest

def searchConst (content : String) : Option String :=
  searchConstAux content.toList

/-- Model of `re.search` for `export\s+(?:default\s+)?function\s+([A-Z][A-Za-z0-9_]*)`. -/
def searchExportFunctionAux : List Char → Option String
  | [] => none
  | c :: rest =>
    match tryExportFuncAt (c :: rest) with
    | some s => some s
    | none => searchExportFunctionAux rest

def searchExportFunction (content : String) : Option String :=
  searchExportFunctionAux content.toList

/-- Model of `pathlib.PurePosixPath(path).name`: the final path component ("." and
empty components are dropped by pathlib's parser). -/
def pyName (path : String) : String :=
  let comps := (splitChar '/' path.toList).map String.mk
  let comps := comps.filter (fun s => !s.isEmpty ∧ s ≠ ".")
  match comps.getLast? with
  | some n => n
  | none => ""

/-- Model of the `pathlib` suffix/stem computation on a file name: the last `.` must sit
strictly inside the name (`0 < i < len(name) - 1`); returns
`(stem, suffix-with-dot)` when such a dot exists. -/
def splitExtChars (n : List Char) : Option (List Char × List Char) :=
  let rev := n.reverse
  let ext := rev.takeWhile (fun c => c ≠ '.')
  if ext.length = rev.length then none
  else if ext.length = 0 then none
  else if ext.length = rev.length - 1 then none
  else some (n.take (n.length - ext.length - 1), '.' :: ext.reverse)

/-- Model of `pathlib.PurePosixPath(path).suffix`. -/
def pySuffix (path : String) : String :=
  match splitExtChars (pyName path).toList with
  | some (_, ext) => String.mk ext
  | none => ""

/-- Model of `pathlib.PurePosixPath(path).stem`. -/
def pyStem (path : String) : String :=
  match splitExtChars (pyName path).toList with
  | some (stem, _) => String.mk stem
  | none => pyName path

/-- Record `PropDefinition` from `parse_component.py`. -/
structure PropDefinition where
  name : String
  type : String
  required : Bool
  default_value : Option String := none
  description : Option String := none
deriving Repr, DecidableEq

/-- Record `ComponentMetadata` from `parse_component.py`. -/
structure ComponentMetadata where
  name : String
  file_path : String
  framework : String
  props : List PropDefinition
  component_type : String
  has_children : Bool
  exports_default : Bool
deriving Repr, DecidableEq

/-- Embedding of `ComponentParser.classify_component`: ordered keyword-membership checks
over the lower-cased component name (the props argument is accepted but,
as in the source, not consulted). -/
def classifyComponent (name : String) (_props : List PropDefinition) : String :=
  let n := pyLower name
  if ["button", "btn"].any (fun t => containsSub t n) then "button"
  else if ["input", "textfield", "textarea"].any (fun t => containsSub t n) then "input"
  else if ["select", "dropdown", "combo"].any (fun t => containsSub t n) then "select"
  else if ["checkbox", "check"].any (fun t => containsSub t n) then "checkbox"
  else if ["radio"].any (fun t => containsSub t n) then "radio"
  else if ["switch", "toggle"].any (fun t => containsSub t n) then "switch"
  else if ["card"].any (fun t => containsSub t n) then "card"
  else if ["modal", "dialog"].any (fun t => containsSub t n) then "modal"
  else if ["sidebar", "drawer"].any (fun t => containsSub t n) then "sidebar"
  else if ["container", "box", "grid"].any (fun t => containsSub t n) then "layout"
  else if ["table", "datagrid"].any (fun t => containsSub t n) then "table"
  else if ["list"].any (fun t => containsSub t n) then "list"
  else if ["chart", "graph"].any (fun t => containsSub t n) then "chart"
  else if ["badge", "tag", "chip"].any (fun t => containsSub t n) then "badge"
  else if ["avatar"].any (fun t => containsSub t n) then "avatar"
  else if ["alert", "notification"].any (fun t => containsSub t n) then "alert"
  else if ["toast", "snackbar"].any (fun t => containsSub t n) then "toast"
  else if ["progress", "loader", "spinner"].any (fun t => containsSub t n) then "progress"
  else if ["menu", "nav"].any (fun t => containsSub t n) then "menu"
  else if ["tab"].any (fun t => containsSub t n) then "tabs"
  else if ["breadcrumb"].any (fun t => containsSub t n) then "breadcrumb"
  else if ["pagination", "pager"].any (fun t => containsSub t n) then "pagination"
  else "other"

/-- Embedding of `ReactTypeScriptParser._extract_component_name`: the ordered regex
rules, falling back to the file stem when none matches. -/
def extractComponentName (content path : String) : String :=
  match searchFunction content with
  | some n => n
  | none =>
    match searchConst content with
    | some n => n
    | none =>
      match searchExportFunction content with
      | some n => n
      | none => pyStem path

/-- One raw match of the React prop regex `(\w+)(\?)?:\s*([^;]+);?` inside a
props block.  The block/prop regex scan over the file text is abstracted as
an input to the embedding. -/
structure ReactPropMatch where
  name : String
  optional : Bool
  typeText : String
deriving Repr, DecidableEq

/-- One raw match of the Vue typed-prop regex `(\w+)(\?)?:\s*([^;,]+)`. -/
structure VuePropMatch where
  name : String
  optional : Bool
  typeText : String
deriving Repr, DecidableEq

/-- One raw match of the Vue runtime-prop regex
`(\w+):\s*\{[^}]*type:\s*(\w+)[^}]*required:\s*(true|false)?[^}]*\}`;
the third group is optional and, when present, is exactly `true` or
`false`. -/
structure VueRuntimeMatch where
  name : String
  typeName : String
  requiredText : Option String
deriving Repr, DecidableEq

/-- One raw match of the Svelte regex
`export\s+let\s+(\w+)(?::\s*([^=;]+))?(?:\s*=\s*([^;]+))?;?`. -/
structure SvelteMatch where
  name : String
  typeText : Option String
  defaultText : Option String
deriving Repr, DecidableEq

/-- Embedding of `ReactTypeScriptParser._extract_props`: `none` models "no Props
interface/type block matched"; otherwise each raw match becomes a prop with
the type text stripped and whitespace-normalised (`' '.join(t.split())`). -/
def reactExtractProps (rawMatches : Option (List ReactPropMatch)) : List PropDefinition :=
  match rawMatches with
  | none => []
  | some ms =>
    ms.map fun r =>
      { name := r.name
        type := String.intercalate " " (pySplitWs (pyStrip r.typeText))
        required := !r.optional }

/-- Embedding of `VueParser._extract_props`: the typed `defineProps` scan, and the
runtime `defineProps({…})` scan used only when the typed scan produced no
props. -/
def vueExtractProps (typed : Option (List VuePropMatch))
    (runtime : Option (List VueRuntimeMatch)) : List PropDefinition :=
  let props :=
    match typed with
    | none => []
    | some ms =>
      ms.map fun r =>
        { name := r.name, type := pyStrip r.typeText, required := !r.optional : PropDefinition }
  match runtime with
  | none => props
  | some rms =>
    if props.isEmpty then
      rms.map fun r =>
        { name := r.name
          type := r.typeName
          required := match r.requiredText with
                      | some s => s = "true"
                      | none => false }
    else props

/-- Type of a Svelte prop match: `any` when the type group is absent
(or Python-falsy), otherwise the stripped captured text. -/
def svelteType (r : SvelteMatch) : String :=
  match r.typeText with
  | some s => if s.isEmpty then "any" else pyStrip s
  | none => "any"

/-- Default value of a Svelte prop match: the stripped captured text when
the default group is present (and Python-truthy). -/
def svelteDefault (r : SvelteMatch) : Option String :=
  match r.defaultText with
  | some s => if s.isEmpty then none else some (pyStrip s)
  | none => none

/-- Embedding of `SvelteParser._extract_props`: the prop is required
exactly when no default value was captured (`required = default is None`). -/
def svelteExtractProps (rawMatches : List SvelteMatch) : List PropDefinition :=
  rawMatches.map fun r =>
    { name := r.name
      type := svelteType r
      required := (svelteDefault r).isNone
      default_value := svelteDefault r }

/-- Outcome of the React props-regex scan of `_extract_props`.  The source
interpolates the component name unescaped into the props-block pattern
(`rf'interface\s+{component_name}Props...'`), so running the scan can raise
`re.error` when the name contains regex metacharacters (for example the
stem `Component(` of a file `Component(.tsx`); `raises` records that
outcome.  When the scan does not raise, `rawMatches` is the abstracted
block/prop match result as before. -/
structure ReactScan where
  raises : Bool
  rawMatches : Option (List ReactPropMatch)
deriving Repr, DecidableEq

/-- Embedding of `ReactTypeScriptParser.parse` on a readable file: the file
content and the abstracted props-scan outcome are inputs.  Returns `none`
when the extracted name is Python-falsy (empty), and also when the props
scan raises `re.error` — the body's `except Exception` converts that raise
into a `None` return, which is reachable on a readable supported file
because the component name is interpolated unescaped into the props
regex. -/
def reactParse (path content : String) (scan : ReactScan) : Option ComponentMetadata :=
  let name := extractComponentName content path
  if name = "" then none
  else if scan.raises then none
  else
    let props := reactExtractProps scan.rawMatches
    some
      { name := name
        file_path := path
        framework := "react"
        props := props
        component_type := classifyComponent name props
        has_children := props.any (fun p => p.name = "children")
        exports_default := containsSub "export default" content }

/-- Embedding of `VueParser.parse` on a readable file. -/
def vueParse (path content : String) (typed : Option (List VuePropMatch))
    (runtime : Option (List VueRuntimeMatch)) : ComponentMetadata :=
  let name := pyStem path
  let props := vueExtractProps typed runtime
  { name := name
    file_path := path
    framework := "vue"
    props := props
    component_type := classifyComponent name props
    has_children := containsSub "<slot" content
    exports_default := true }

/-- Embedding of `SvelteParser.parse` on a readable file. -/
def svelteParse (path content : String) (rawMatches : List SvelteMatch) : ComponentMetadata :=
  let name := pyStem path
  let props := svelteExtractProps rawMatches
  { name := name
    file_path := path
    framework := "svelte"
    props := props
    component_type := classifyComponent name props
    has_children := containsSub "<slot" content
    exports_default := true }

/-- The abstracted regex-match inputs for the three prop extractors. -/
structure PropMatches where
  react : ReactScan
  vueTyped : Option (List VuePropMatch)
  vueRuntime : Option (List VueRuntimeMatch)
  svelte : List SvelteMatch
deriving Repr, DecidableEq

/-- Embedding of `parse_component`: dispatch on the lower-cased file extension. -/
def parseComponent (path content : String) (pm : PropMatches) : Option ComponentMetadata :=
  let ext := pyLower (pySuffix path)
  if ext ∈ [".tsx", ".jsx", ".ts", ".js"] then reactParse path content pm.react
  else if ext = ".vue" then some (vueParse path content pm.vueTyped pm.vueRuntime)
  else if ext = ".svelte" then some (svelteParse path content pm.svelte)
  else none

/-- A variant `args` value: the detector only ever stores string literals
or the boolean `True`. -/
inductive ArgVal where
  | str (s : String)
  | bool (b : Bool)
deriving Repr, DecidableEq

/-- Record `Variant` from `detect_variants.py`; `args` keeps the dict's insertion
order. -/
structure Variant where
  name : String
  description : String
  args : List (String × ArgVal)
  priority : Nat := 1
deriving Repr, DecidableEq

/-- One entry of the prop-dict list handed to `VariantDetector` (the
`metadata_to_dict` conversion keeps name, type, required, default_value). -/
structure PropDict where
  name : String
  type : String
  required : Bool
  default_value : Option String
deriving Repr, DecidableEq

/-- The metadata dict consumed by `VariantDetector.detect_variants`. -/
structure MetadataDict where
  name : String
  component_type : String
  props : List PropDict
deriving Repr, DecidableEq

/-- Table `VariantDetector.VARIANT_PATTERNS`: the closed lists of admissible
values per recognised prop name. -/
def variantPatternValues (name : String) : Option (List String) :=
  match name with
  | "variant" => some ["primary", "secondary", "outline", "ghost", "link",
                       "danger", "success", "warning"]
  | "color" => some ["primary", "secondary", "success", "warning", "danger", "info"]
  | "size" => some ["small", "medium", "large", "xs", "sm", "md", "lg", "xl"]
  | "type" => some ["button", "submit", "reset", "text", "email", "password", "number"]
  | "appearance" => some ["filled", "outline", "ghost", "link"]
  | "intent" => some ["primary", "success", "warning", "danger"]
  | _ => none

/-- Table `VariantDetector.STATE_PROPS`. -/
def statePropsList : List String :=
  ["disabled", "loading", "active", "selected", "checked", "error", "readonly"]

/-- Embedding of `VariantDetector._parse_union_type`: quoted literals if any; otherwise
split a bar-separated type on `|`, stripping parts and dropping empties. -/
def parseUnionType (typeStr : String) : List String :=
  let found := scanQuoted typeStr
  if !found.isEmpty then found
  else if containsSub "|" typeStr then
    (((splitChar '|' typeStr.toList).map String.mk).map pyStrip).filter
      (fun s => !s.isEmpty)
  else []

/-- The enum-pass emission for a single prop
(`VariantDetector._detect_enum_variants`, inner loop). -/
def enumVariantsOfProp (p : PropDict) : List Variant :=
  match variantPatternValues p.name with
  | none => []
  | some expected =>
    (parseUnionType p.type).filterMap fun v =>
      if expected.isEmpty ∨ v ∈ expected then
        some { name := pyCapitalize v
               description := p.name ++ ": " ++ v
               args := [(p.name, ArgVal.str v)]
               priority := 1 }
      else none

/-- Embedding of `VariantDetector._detect_enum_variants`. -/
def detectEnumVariants (props : List PropDict) : List Variant :=
  props.flatMap enumVariantsOfProp

/-- The size-pass emission for a single union value
(`VariantDetector._detect_size_variants`, inner loop body). -/
def sizeEmit (propName : String) (v : String) : Option Variant :=
  if pyLower v ∈ ["small", "sm", "xs"] then
    some { name := "Small"
           description := "Small size variant"
           args := [(propName, ArgVal.str v)]
           priority := 2 }
  else if pyLower v ∈ ["large", "lg", "xl"] then
    some { name := "Large"
           description := "Large size variant"
           args := [(propName, ArgVal.str v)]
           priority := 2 }
  else none

/-- The size-pass emission for a single prop. -/
def sizeVariantsOfProp (p : PropDict) : List Variant :=
  if pyLower p.name ∈ ["size", "fontsize"] then
    (parseUnionType p.type).filterMap (sizeEmit p.name)
  else []

/-- Embedding of `VariantDetector._detect_size_variants`. -/
def detectSizeVariants (props : List PropDict) : List Variant :=
  props.flatMap sizeVariantsOfProp

/-- The state-pass emission for a single prop
(`VariantDetector._detect_state_variants`, loop body). -/
def stateVariantOfProp (p : PropDict) : Option Variant :=
  if containsSub "boolean" (pyLower p.type) then
    if pyLower p.name ∈ statePropsList then
      some { name := pyCapitalize p.name
             description := p.name ++ " state"
             args := [(p.name, ArgVal.bool true)]
             priority := 2 }
    else none
  else none

/-- Embedding of `VariantDetector._detect_state_variants`. -/
def detectStateVariants (props : List PropDict) : List Variant :=
  props.filterMap stateVariantOfProp

/-- Embedding of `VariantDetector._detect_type_specific_variants`. -/
def detectTypeSpecificVariants (componentType : String)
    (props : List PropDict) : List Variant :=
  if componentType = "button" then
    if props.any (fun p => pyLower p.name ∈ ["icon", "lefticon", "righticon"]) then
      [{ name := "WithIcon", description := "Button with icon", args := [], priority := 3 }]
    else []
  else if componentType = "input" then
    if props.any (fun p => pyLower p.name ∈ ["error", "iserror", "haserror"]) then
      [{ name := "WithError"
         description := "Input with error state"
         args := [("error", ArgVal.str "This field is required")]
         priority := 2 }]
    else []
  else if componentType = "modal" then
    [{ name := "Open"
       description := "Modal in open state"
       args := [("isOpen", ArgVal.bool true)]
       priority := 1 }]
  else if componentType = "table" then
    [{ name := "WithData", description := "Table with sample data", args := [], priority := 1 },
     { name := "Empty", description := "Table with no data", args := [], priority := 2 }]
  else []

/-- The fallback variant appended when no pass produced anything. -/
def defaultVariant : Variant :=
  { name := "Default"
    description := "Default component state"
    args := []
    priority := 1 }

/-- Stable insertion of `x` into `l`, placing `x` after every element
related to it by `le`. -/
def insertSorted (le : Variant → Variant → Bool) (x : Variant) : List Variant → List Variant
  | [] => [x]
  | y :: ys => if le y x then y :: insertSorted le x ys else x :: y :: ys

/-- Stable ascending sort, modelling Python's stable
`list.sort(key=lambda v: v.priority)`. -/
def stableSortVariants (le : Variant → Variant → Bool) (l : List Variant) : List Variant :=
  l.foldl (fun acc x => insertSorted le x acc) []

/-- The four detection passes of `VariantDetector.detect_variants`,
concatenated in source order. -/
def allPasses (md : MetadataDict) : List Variant :=
  detectEnumVariants md.props ++ detectSizeVariants md.props ++
    detectStateVariants md.props ++
    detectTypeSpecificVariants md.component_type md.props

/-- Embedding of `VariantDetector.detect_variants`: the four passes, the `Default`
fallback when nothing was produced, then a stable sort by priority. -/
def detectVariants (md : MetadataDict) : List Variant :=
  let vs := allPasses md
  let vs := if vs = [] then [defaultVariant] else vs
  stableSortVariants (fun a b => a.priority ≤ b.priority) vs

/-- Embedding of `StoryGenerator._metadata_to_dict`. -/
def metadataToDict (md : ComponentMetadata) : MetadataDict :=
  { name := md.name
    component_type := md.component_type
    props := md.props.map fun p =>
      { name := p.name, type := p.type, required := p.required,
        default_value := p.default_value } }

/-- Embedding of `StoryGenerator._infer_control_type`: the ordered first-match-wins
precedence over prop type and name.  The enum branch mirrors the source's
fall-through: when the type contains `|` and `'` but the quoted-literal
scan finds nothing, the later branches are still tried. -/
def inferControlType (prop : PropDefinition) : Option String :=
  let propType := pyLower prop.type
  let propName := pyLower prop.name
  if containsSub "boolean" propType then
    some "\x7b control: 'boolean' \x7d"
  else if containsSub "number" propType then
    if ["opacity", "progress", "percent", "ratio"].any
        (fun h => containsSub h propName) then
      some "\x7b control: \x7b type: 'range', min: 0, max: 1, step: 0.1 \x7d \x7d"
    else if ["size", "width", "height", "padding", "margin", "gap"].any
        (fun h => containsSub h propName) then
      some "\x7b control: \x7b type: 'range', min: 0, max: 100, step: 1 \x7d \x7d"
    else some "\x7b control: 'number' \x7d"
  else if ["color", "background", "bg", "fill", "stroke"].any
      (fun h => containsSub h propName) then
    some "\x7b control: 'color' \x7d"
  else if pyEndsWith "date" propName ∨ pyEndsWith "time" propName ∨
      containsSub "timestamp" propName then
    some "\x7b control: 'date' \x7d"
  else if containsSub "object" propType ∨ containsSub "record" propType ∨
      containsSub "\x7b" prop.type then
    some "\x7b control: 'object' \x7d"
  else if containsSub "array" propType ∨ containsSub "[]" prop.type then
    some "\x7b control: 'object' \x7d"
  else if containsSub "file" propType ∨
      propName ∈ ["file", "files", "src", "source"] then
    if containsSub "image" propName ∨ containsSub "avatar" propName ∨
        containsSub "photo" propName then
      some "\x7b control: \x7b type: 'file', accept: 'image/*' \x7d \x7d"
    else some "\x7b control: 'file' \x7d"
  else if containsSub "|" prop.type ∧ containsSub "'" prop.type ∧
      !(scanSingleQuoted prop.type).isEmpty then
    let found := scanSingleQuoted prop.type
    let optionsStr := String.intercalate ", " (found.map (fun o => "'" ++ o ++ "'"))
    if found.length ≤ 4 then
      some ("\x7b options: [" ++ optionsStr ++ "], control: \x7b type: 'radio' \x7d \x7d")
    else
      some ("\x7b options: [" ++ optionsStr ++ "], control: \x7b type: 'select' \x7d \x7d")
  else if containsSub "function" propType ∨ containsSub "=>" propType ∨
      pyStartsWith "on" propName then
    some ("\x7b action: '" ++ prop.name ++ "' \x7d")
  else if containsSub "string" propType then
    some "\x7b control: 'text' \x7d"
  else if containsSub "react" propType ∨ containsSub "node" propType ∨
      containsSub "element" propType then
    some "\x7b control: false \x7d"
  else none

/-- Table `StoryGenerator.INTERACTION_TESTS`. -/
def interactionTests (componentType : String) : Option String :=
  match componentType with
  | "button" => some "\n    const button = canvas.getByRole('button');\n    await expect(button).toBeInTheDocument();\n    await userEvent.click(button);\n    if (args.onClick) \x7b\n      await expect(args.onClick).toHaveBeenCalled();\n    \x7d\n    await expect(button).not.toBeDisabled();\n        "
  | "input" => some "\n    const input = canvas.getByRole('textbox');\n    await expect(input).toBeInTheDocument();\n    await userEvent.type(input, 'Test input');\n    await expect(input).toHaveValue('Test input');\n        "
  | "checkbox" => some "\n    const checkbox = canvas.getByRole('checkbox');\n    await expect(checkbox).toBeInTheDocument();\n    await userEvent.click(checkbox);\n    await expect(checkbox).toBeChecked();\n        "
  | "select" => some "\n    const select = canvas.getByRole('combobox');\n    await expect(select).toBeInTheDocument();\n    await userEvent.selectOptions(select, 'option1');\n        "
  | _ => none

/-- Table `StoryGenerator.A11Y_RULES`. -/
def a11yRulesTable (componentType : String) : Option (List String) :=
  match componentType with
  | "button" => some ["\x7b id: 'button-name', enabled: true \x7d",
                      "\x7b id: 'color-contrast', enabled: true \x7d"]
  | "input" => some ["\x7b id: 'label', enabled: true \x7d",
                     "\x7b id: 'color-contrast', enabled: true \x7d"]
  | "modal" => some ["\x7b id: 'aria-dialog-name', enabled: true \x7d",
                     "\x7b id: 'focus-trap', enabled: true \x7d"]
  | _ => none

/-- Table `StoryGenerator.A11Y_TEST_CODE`. -/
def a11yTestCode (componentType : String) : Option String :=
  match componentType with
  | "button" => some "\n    const button = canvas.getByRole('button');\n    button.focus();\n    await expect(button).toHaveFocus();\n    await userEvent.keyboard('\x7bEnter\x7d');\n        "
  | "input" => some "\n    const input = canvas.getByRole('textbox');\n    await expect(input).toHaveAccessibleName();\n    input.focus();\n    await expect(input).toHaveFocus();\n        "
  | _ => none

/-- Embedding of `StoryGenerator._generate_arg_types`: one argTypes line per prop with
an inferred control, skipping the `children` prop. -/
def generateArgTypes (props : List PropDefinition) : String :=
  String.intercalate "\n" (props.filterMap fun p =>
    if p.name = "children" then none
    else
      match inferControlType p with
      | some c => some ("    " ++ p.name ++ ": " ++ c ++ ",")
      | none => none)

/-- One serialized `args` line of a variant story
(`StoryGenerator._generate_variant_stories`, inner loop). -/
def argLine : String × ArgVal → String
  | (k, ArgVal.str v) => "    " ++ k ++ ": '" ++ v ++ "',"
  | (k, ArgVal.bool b) => "    " ++ k ++ ": " ++ (if b then "true" else "false") ++ ","

/-- Embedding of `StoryGenerator._generate_variant_stories`. -/
def generateVariantStories (md : ComponentMetadata) (variants : List Variant) : String :=
  String.intercalate "\n" (variants.map fun v =>
    let args := v.args.map argLine
    let args :=
      if md.has_children ∧ ¬ (v.args.any (fun kv => kv.1 = "children")) then
        args ++ ["    children: '" ++ md.name ++ "',"]
      else args
    let argsStr := String.intercalate "\n" args
    "\nexport const " ++ v.name ++ ": Story = \x7b\n  args: \x7b\n" ++
      argsStr ++ "\n  \x7d,\n\x7d;\n")

/-- Embedding of `StoryGenerator._generate_default_args`. -/
def generateDefaultArgs (md : ComponentMetadata) : String :=
  let args :=
    if md.has_children then ["    children: '" ++ md.name ++ "',"] else []
  let args :=
    if md.component_type = "button" ∧ md.props.any (fun p => p.name = "onClick") then
      args ++ ["    onClick: () => \x7b\x7d,"]
    else args
  String.intercalate "\n" args

/-- The placeholder-substitution step of
`StoryGenerator._generate_story_content` (the part after a template was
successfully loaded). -/
def renderTemplate (template : String) (md : ComponentMetadata)
    (variants : List Variant) : String :=
  let storyTitle := "Components/" ++ md.name
  let interactionTest :=
    (interactionTests md.component_type).getD "// Component-specific interaction test"
  let a11yRules := String.intercalate ",\n          "
    ((a11yRulesTable md.component_type).getD
      ["\x7b id: 'color-contrast', enabled: true \x7d"])
  let a11yTest :=
    (a11yTestCode md.component_type).getD "// Component-specific accessibility test"
  let s := template.replace "\x7b\x7bCOMPONENT_NAME\x7d\x7d" md.name
  let s := s.replace "\x7b\x7bSTORY_TITLE\x7d\x7d" storyTitle
  let s := s.replace "\x7b\x7bARG_TYPES\x7d\x7d" (generateArgTypes md.props)
  let s := s.replace "\x7b\x7bVARIANT_STORIES\x7d\x7d" (generateVariantStories md variants)
  let s := s.replace "\x7b\x7bDEFAULT_ARGS\x7d\x7d" (generateDefaultArgs md)
  let s := s.replace "\x7b\x7bINTERACTION_TEST_CODE\x7d\x7d" (pyStrip interactionTest)
  let s := s.replace "\x7b\x7bA11Y_RULES\x7d\x7d" a11yRules
  let s := s.replace "\x7b\x7bA11Y_TEST_CODE\x7d\x7d" (pyStrip a11yTest)
  s

/-- Embedding of `StoryGenerator._generate_story_content`: look up the
`framework-level` template, fall back to the framework's basic template,
and return the empty string (after reporting an error) when neither
exists.  The template directory is modelled as a lookup from template file
name to optional content. -/
def generateStoryContent (templates : String → Option String)
    (md : ComponentMetadata) (variants : List Variant) (level : String) : String :=
  match templates (md.framework ++ "-" ++ level ++ ".template") with
  | some t => renderTemplate t md variants
  | none =>
    match templates (md.framework ++ "-basic.template") with
    | some t => renderTemplate t md variants
    | none => ""

/-- Embedding of `StoryGenerator.generate_story`: parse, detect variants, generate
content, and — whenever an output path was provided — write the generated
content to it.  The return value pairs the function's result with the list
of file writes performed. -/
def generateStory (path content : String) (pm : PropMatches)
    (templates : String → Option String) (level : String)
    (outputPath : Option String) : Option String × List (String × String) :=
  match parseComponent path content pm with
  | none => (none, [])
  | some md =>
    let variants := detectVariants (metadataToDict md)
    let story := generateStoryContent templates md variants level
    match outputPath with
    | some p => (some story, [(p, story)])
    | none => (some story, [])

/-- Number of small-family literals (small/sm/xs) across the union values
of props literally named size/fontSize (case-insensitively). -/
def sizeSmallCount (props : List PropDict) : Nat :=
  (props.map fun p =>
    if pyLower p.name ∈ ["size", "fontsize"] then
      ((parseUnionType p.type).filter
        (fun s => pyLower s ∈ ["small", "sm", "xs"])).length
    else 0).sum

/-- Number of large-family literals (large/lg/xl) across the union values
of props literally named size/fontSize (case-insensitively). -/
def sizeLargeCount (props : List PropDict) : Nat :=
  (props.map fun p =>
    if pyLower p.name ∈ ["size", "fontsize"] then
      ((parseUnionType p.type).filter
        (fun s => pyLower s ∈ ["large", "lg", "xl"])).length
    else 0).sum

/-- Empty prop-regex matches: a file whose props scan does not raise and
whose text matches none of the prop extraction patterns. -/
def emptyPropMatches : PropMatches := ⟨⟨false, none⟩, none, none, []⟩

/-- A size prop whose union type holds two small-family literals. -/
def sizeDupProp : PropDict :=
  { name := "size", type := "'sm' | 'xs'", required := true, default_value := none }

/-- The size-pass variant produced for the literal `sm`. -/
def smallSmVariant : Variant :=
  { name := "Small", description := "Small size variant",
    args := [("size", ArgVal.str "sm")], priority := 2 }

/-- The button scenario of the specification: a button-classified component
with an enumerated `variant` prop and a boolean `disabled` prop. -/
def buttonScenarioMd : MetadataDict :=
  { name := "Button"
    component_type := "button"
    props := [{ name := "variant", type := "'primary' | 'secondary'",
                required := true, default_value := none },
              { name := "disabled", type := "boolean",
                required := false, default_value := none }] }

/-- A string-typed prop whose name carries a color hint. -/
def bgColorProp : PropDefinition :=
  { name := "backgroundColor", type := "string", required := true }

/-- A Svelte prop match carrying an explicit default value. -/
def svelteExampleMatch : SvelteMatch :=
  { name := "label", typeText := some " string ", defaultText := some " 'hi' " }

/-- Nonemptiness of a string built from a nonempty character list. -/
theorem stringMk_cons_ne_empty (c : Char) (t : List Char) :
    String.mk (c :: t) ≠ "" := by
  intro h
  have h2 := congrArg String.data h
  simp at h2

/-- Membership in a stable insertion adds exactly the inserted element. -/
theorem mem_insertSorted (le : Variant → Variant → Bool) (x y : Variant)
    (l : List Variant) : x ∈ insertSorted le y l ↔ x = y ∨ x ∈ l := by
  induction l with
  | nil => simp [insertSorted]
  | cons z zs ih =>
    simp only [insertSorted]
    by_cases h : le z y
    · simp only [if_pos h, List.mem_cons, ih]; tauto
    · simp only [if_neg h, List.mem_cons]

/-- Membership through the fold that implements the stable sort. -/
theorem mem_foldl_insertSorted (le : Variant → Variant → Bool) (x : Variant)
    (l : List Variant) : ∀ acc : List Variant,
    x ∈ l.foldl (fun a b => insertSorted le b a) acc ↔ x ∈ acc ∨ x ∈ l := by
  induction l with
  | nil => intro acc; simp
  | cons b t ih =>
    intro acc
    simp only [List.foldl_cons, ih, mem_insertSorted, List.mem_cons]
    tauto

/-- The stable sort preserves membership. -/
theorem mem_stableSortVariants (le : Variant → Variant → Bool) (x : Variant)
    (l : List Variant) : x ∈ stableSortVariants le l ↔ x ∈ l := by
  simp [stableSortVariants, mem_foldl_insertSorted]

/-- Unfolding equation for `detectVariants`. -/
theorem detectVariants_eq (md : MetadataDict) :
    detectVariants md =
      stableSortVariants (fun a b => a.priority ≤ b.priority)
        (if allPasses md = [] then [defaultVariant] else allPasses md) := rfl

/-- Every enum-pass variant has priority 1 and a nonempty args map. -/
theorem mem_enumVariantsOfProp {p : PropDict} {v : Variant}
    (h : v ∈ enumVariantsOfProp p) : v.priority = 1 ∧ v.args ≠ [] := by
  unfold enumVariantsOfProp at h
  cases hv : variantPatternValues p.name with
  | none => rw [hv] at h; simp at h
  | some exp =>
    rw [hv, List.mem_filterMap] at h
    obtain ⟨a, _, hf⟩ := h
    split at hf
    · rw [Option.some.injEq] at hf
      subst hf
      constructor
      · rfl
      · simp
    · cases hf

/-- Shape of a size-pass emission: priority 2, named Small or Large, with
a nonempty args map. -/
theorem sizeEmit_some {n s : String} {v : Variant} (h : sizeEmit n s = some v) :
    v.priority = 2 ∧ (v.name = "Small" ∨ v.name = "Large") ∧ v.args ≠ [] := by
  unfold sizeEmit at h
  split at h
  · rw [Option.some.injEq] at h
    subst h
    exact ⟨rfl, Or.inl rfl, by simp⟩
  · split at h
    · rw [Option.some.injEq] at h
      subst h
      exact ⟨rfl, Or.inr rfl, by simp⟩
    · cases h

/-- Shape of every variant of the size pass for a single prop. -/
theorem mem_sizeVariantsOfProp {p : PropDict} {v : Variant}
    (h : v ∈ sizeVariantsOfProp p) :
    v.priority = 2 ∧ (v.name = "Small" ∨ v.name = "Large") ∧ v.args ≠ [] := by
  unfold sizeVariantsOfProp at h
  split at h
  · rw [List.mem_filterMap] at h
    obtain ⟨a, _, hf⟩ := h
    exact sizeEmit_some hf
  · cases h

/-- Shape of a state-pass emission: priority 2 with a nonempty args map. -/
theorem stateVariantOfProp_some {p : PropDict} {v : Variant}
    (h : stateVariantOfProp p = some v) : v.priority = 2 ∧ v.args ≠ [] := by
  unfold stateVariantOfProp at h
  split at h
  · split at h
    · rw [Option.some.injEq] at h
      subst h
      exact ⟨rfl, by simp⟩
    · cases h
  · cases h

/-- Shape of every category-specific variant: a priority in 1..3 and a
name distinct from `Default`. -/
theorem mem_typeSpecificVariants {t : String} {props : List PropDict} {v : Variant}
    (h : v ∈ detectTypeSpecificVariants t props) :
    (v.priority = 1 ∨ v.priority = 2 ∨ v.priority = 3) ∧ v.name ≠ "Default" := by
  unfold detectTypeSpecificVariants at h
  split at h
  · split at h
    · rw [List.mem_singleton] at h
      subst h
      exact ⟨by norm_num, by decide⟩
    · cases h
  · split at h
    · split at h
      · rw [List.mem_singleton] at h
        subst h
        exact ⟨by norm_num, by decide⟩
      · cases h
    · split at h
      · rw [List.mem_singleton] at h
        subst h
        exact ⟨by norm_num, by decide⟩
      · split at h
        · rw [List.mem_cons] at h
          rcases h with h | h
          · subst h; exact ⟨by norm_num, by decide⟩
          · rw [List.mem_singleton] at h
            subst h
            exact ⟨by norm_num, by decide⟩
        · cases h

/-- Every variant emitted by one of the four passes has a priority in 1..3
and differs from the fallback `Default` variant. -/
theorem mem_allPasses {md : MetadataDict} {v : Variant} (h : v ∈ allPasses md) :
    (v.priority = 1 ∨ v.priority = 2 ∨ v.priority = 3) ∧ v ≠ defaultVariant := by
  unfold allPasses at h
  rw [List.mem_append, List.mem_append, List.mem_append] at h
  rcases h with ((h | h) | h) | h
  · rw [detectEnumVariants, List.mem_flatMap] at h
    obtain ⟨p, _, hp⟩ := h
    obtain ⟨h1, h2⟩ := mem_enumVariantsOfProp hp
    refine ⟨Or.inl h1, fun hv => h2 ?_⟩
    rw [hv]
    rfl
  · obtain ⟨p, _, hp⟩ := List.mem_flatMap.mp h
    obtain ⟨h1, _, h2⟩ := mem_sizeVariantsOfProp hp
    refine ⟨Or.inr (Or.inl h1), fun hv => h2 ?_⟩
    rw [hv]
    rfl
  · rw [detectStateVariants, List.mem_filterMap] at h
    obtain ⟨p, _, hp⟩ := h
    obtain ⟨h1, h2⟩ := stateVariantOfProp_some hp
    refine ⟨Or.inr (Or.inl h1), fun hv => h2 ?_⟩
    rw [hv]
    rfl
  · obtain ⟨h1, h2⟩ := mem_typeSpecificVariants h
    refine ⟨h1, fun hv => h2 ?_⟩
    rw [hv]
    rfl

/-- The Small-variant count of the size pass over a value list equals the
number of small-family literals in that list. -/
theorem sizeEmit_countSmall (pname : String) (vals : List String) :
    ((vals.filterMap (sizeEmit pname)).countP (fun v => v.name == "Small")) =
      (vals.filter (fun s => pyLower s ∈ ["small", "sm", "xs"])).length := by
  induction vals with
  | nil => simp
  | cons a t ih =>
    by_cases h1 : pyLower a ∈ ["small", "sm", "xs"]
    · simp only [List.filterMap_cons, sizeEmit, if_pos h1, List.countP_cons,
        List.filter_cons, h1]
      simp [ih, h1]
    · by_cases h2 : pyLower a ∈ ["large", "lg", "xl"]
      · simp only [List.filterMap_cons, sizeEmit, if_neg h1, if_pos h2,
          List.countP_cons, List.filter_cons]
        simp [ih, h1]
      · simp only [List.filterMap_cons, sizeEmit, if_neg h1, if_neg h2,
          List.filter_cons]
        simp [ih, h1]

/-- The Large-variant count of the size pass over a value list equals the
number of large-family literals in that list. -/
theorem sizeEmit_countLarge (pname : String) (vals : List String) :
    ((vals.filterMap (sizeEmit pname)).countP (fun v => v.name == "Large")) =
      (vals.filter (fun s => pyLower s ∈ ["large", "lg", "xl"])).length := by
  induction vals with
  | nil => simp
  | cons a t ih =>
    by_cases h1 : pyLower a ∈ ["small", "sm", "xs"]
    · simp only [List.filterMap_cons, sizeEmit, if_pos h1, List.countP_cons,
        List.filter_cons]
      have h2 : pyLower a ∉ ["large", "lg", "xl"] := by
        simp only [List.mem_cons, List.not_mem_nil, or_false] at h1 ⊢
        rcases h1 with h | h | h <;> rw [h] <;> decide
      simp [ih, h2]
    · by_cases h2 : pyLower a ∈ ["large", "lg", "xl"]
      · simp only [List.filterMap_cons, sizeEmit, if_neg h1, if_pos h2,
          List.countP_cons, List.filter_cons]
        simp [ih, h2]
      · simp only [List.filterMap_cons, sizeEmit, if_neg h1, if_neg h2,
          List.filter_cons]
        simp [ih, h2]

/-- Per-prop Small-variant count of the size pass. -/
theorem sizeVariantsOfProp_countSmall (p : PropDict) :
    (sizeVariantsOfProp p).countP (fun v => v.name == "Small") =
      (if pyLower p.name ∈ ["size", "fontsize"] then
        ((parseUnionType p.type).filter
          (fun s => pyLower s ∈ ["small", "sm", "xs"])).length
      else 0) := by
  unfold sizeVariantsOfProp
  split
  · exact sizeEmit_countSmall p.name (parseUnionType p.type)
  · simp

/-- Per-prop Large-variant count of the size pass. -/
theorem sizeVariantsOfProp_countLarge (p : PropDict) :
    (sizeVariantsOfProp p).countP (fun v => v.name == "Large") =
      (if pyLower p.name ∈ ["size", "fontsize"] then
        ((parseUnionType p.type).filter
          (fun s => pyLower s ∈ ["large", "lg", "xl"])).length
      else 0) := by
  unfold sizeVariantsOfProp
  split
  · exact sizeEmit_countLarge p.name (parseUnionType p.type)
  · simp

/-- Identifiers captured by the upper-case identifier matcher are nonempty. -/
theorem matchUpperIdent_ne_empty {l : List Char} {s : String}
    (h : matchUpperIdent l = some s) : s ≠ "" := by
  cases l with
  | nil => simp [matchUpperIdent] at h
  | cons c rest =>
    simp only [matchUpperIdent] at h
    split at h
    · rw [Option.some.injEq] at h
      subst h
      exact stringMk_cons_ne_empty _ _
    · cases h

/-- Names captured by the `function` rule are nonempty. -/
theorem tryFuncTail_ne_empty {l : List Char} {s : String}
    (h : tryFuncTail l = some s) : s ≠ "" := by
  unfold tryFuncTail at h
  rw [Option.bind_eq_some] at h
  obtain ⟨r1, _, h2⟩ := h
  rw [Option.bind_eq_some] at h2
  obtain ⟨r2, _, h3⟩ := h2
  exact matchUpperIdent_ne_empty h3

/-- Names captured by the `const` rule are nonempty. -/
theorem tryConstAt_ne_empty {l : List Char} {s : String}
    (h : tryConstAt l = some s) : s ≠ "" := by
  unfold tryConstAt at h
  rw [Option.bind_eq_some] at h
  obtain ⟨r1, _, h2⟩ := h
  rw [Option.bind_eq_some] at h2
  obtain ⟨r2, _, h3⟩ := h2
  cases r2 with
  | nil => cases h3
  | cons c rest =>
    dsimp only at h3
    split at h3
    · split at h3
      · cases h3
      · split at h3
        · rw [Option.some.injEq] at h3
          subst h3
          exact stringMk_cons_ne_empty _ _
        · cases h3
    · cases h3

/-- Names captured by the `export function` rule are nonempty. -/
theorem tryExportFuncAt_ne_empty {l : List Char} {s : String}
    (h : tryExportFuncAt l = some s) : s ≠ "" := by
  unfold tryExportFuncAt at h
  rw [Option.bind_eq_some] at h
  obtain ⟨r1, _, h2⟩ := h
  rw [Option.bind_eq_some] at h2
  obtain ⟨r2, _, h3⟩ := h2
  split at h3
  · exact tryFuncTail_ne_empty h3
  · exact tryFuncTail_ne_empty h3

/-- Successful `function` searches return a nonempty name. -/
theorem searchFunction_ne_empty {content : String} {s : String}
    (h : searchFunction content = some s) : s ≠ "" := by
  unfold searchFunction at h
  generalize content.toList = l at h
  induction l with
  | nil => cases h
  | cons c rest ih =>
    unfold searchFunctionAux at h
    split at h
    · rw [Option.some.injEq] at h
      subst h
      exact tryFuncTail_ne_empty (by assumption)
    · exact ih h

/-- Successful `const` searches return a nonempty name. -/
theorem searchConst_ne_empty {content : String} {s : String}
    (h : searchConst content = some s) : s ≠ "" := by
  unfold searchConst at h
  generalize content.toList = l at h
  induction l with
  | nil => cases h
  | cons c rest ih =>
    unfold searchConstAux at h
    split at h
    · rw [Option.some.injEq] at h
      subst h
      exact tryConstAt_ne_empty (by assumption)
    · exact ih h

/-- Successful `export function` searches return a nonempty name. -/
theorem searchExportFunction_ne_empty {content : String} {s : String}
    (h : searchExportFunction content = some s) : s ≠ "" := by
  unfold searchExportFunction at h
  generalize content.toList = l at h
  induction l with
  | nil => cases h
  | cons c rest ih =>
    unfold searchExportFunctionAux at h
    split at h
    · rw [Option.some.injEq] at h
      subst h
      exact tryExportFuncAt_ne_empty (by assumption)
    · exact ih h

/-- When a name splits into stem and suffix, the stem is nonempty. -/
theorem splitExtChars_stem_ne_nil {n stem ext : List Char}
    (h : splitExtChars n = some (stem, ext)) : stem ≠ [] := by
  simp only [splitExtChars] at h
  split at h
  · cases h
  · split at h
    · cases h
    · split at h
      · cases h
      · rw [Option.some.injEq, Prod.mk.injEq] at h
        obtain ⟨h1, _⟩ := h
        subst h1
        have hle : (n.reverse.takeWhile (fun c => decide (c ≠ '.'))).length ≤
            n.reverse.length := by
          have := List.takeWhile_sublist (l := n.reverse) (fun c => decide (c ≠ '.'))
          exact this.length_le
        rw [List.length_reverse] at *
        intro hc
        have hlen := congrArg List.length hc
        rw [List.length_take] at hlen
        simp only [List.length_nil] at hlen
        omega

/-- A path with a nonempty suffix has a nonempty stem. -/
theorem pyStem_ne_empty {path : String} (h : pySuffix path ≠ "") :
    pyStem path ≠ "" := by
  unfold pySuffix at h
  unfold pyStem
  cases hsp : splitExtChars (pyName path).toList with
  | none => rw [hsp] at h; exact absurd rfl h
  | some pr =>
    obtain ⟨st, ex⟩ := pr
    have hne := splitExtChars_stem_ne_nil hsp
    cases st with
    | nil => exact absurd rfl hne
    | cons c t => exact stringMk_cons_ne_empty c t

/-- The extracted component name is nonempty whenever the fallback stem is. -/
theorem extractComponentName_ne_empty {content path : String}
    (h : pyStem path ≠ "") : extractComponentName content path ≠ "" := by
  unfold extractComponentName
  cases h1 : searchFunction content with
  | some s => exact searchFunction_ne_empty h1
  | none =>
    cases h2 : searchConst content with
    | some s => exact searchConst_ne_empty h2
    | none =>
      cases h3 : searchExportFunction content with
      | some s => exact searchExportFunction_ne_empty h3
      | none => exact h

/-- The React parser succeeds whenever name extraction produced a nonempty
name and the props scan does not raise. -/
theorem reactParse_isSome_of_not_raises {path content : String} {scan : ReactScan}
    (h : extractComponentName content path ≠ "") (hr : scan.raises = false) :
    (reactParse path content scan).isSome = true := by
  simp only [reactParse]
  rw [if_neg h]
  rw [hr]
  rfl

/-- Whatever the scan outcome, the React parser never returns metadata with
an empty name once name extraction produced a nonempty name. -/
theorem reactParse_map_name_ne {path content : String} {scan : ReactScan}
    (h : extractComponentName content path ≠ "") :
    (reactParse path content scan).map ComponentMetadata.name ≠ some "" := by
  simp only [reactParse]
  rw [if_neg h]
  cases hb : scan.raises
  · intro hc
    exact h (Option.some.inj hc)
  · simp

/-- Case analysis of the extension dispatch in `parseComponent`. -/
theorem parseComponent_cases (path content : String) (pm : PropMatches) :
    (pyLower (pySuffix path) ∈ [".tsx", ".jsx", ".ts", ".js"] →
      parseComponent path content pm = reactParse path content pm.react) ∧
    (pyLower (pySuffix path) = ".vue" →
      parseComponent path content pm =
        some (vueParse path content pm.vueTyped pm.vueRuntime)) ∧
    (pyLower (pySuffix path) = ".svelte" →
      parseComponent path content pm = some (svelteParse path content pm.svelte)) ∧
    (pyLower (pySuffix path) ∉ [".tsx", ".jsx", ".ts", ".js", ".vue", ".svelte"] →
      parseComponent path content pm = none) := by
  refine ⟨?_, ?_, ?_, ?_⟩ <;> intro h
  · simp only [parseComponent]
    rw [if_pos h]
  · simp only [parseComponent]
    rw [if_neg, if_pos h]
    rw [h]
    decide
  · simp only [parseComponent]
    rw [if_neg, if_neg, if_pos h]
    · rw [h]; decide
    · rw [h]; decide
  · simp only [parseComponent]
    rw [if_neg, if_neg, if_neg]
    · intro hc; exact h (by rw [hc]; decide)
    · intro hc; exact h (by rw [hc]; decide)
    · intro hc
      apply h
      simp only [List.mem_cons] at hc ⊢
      tauto

/-- Every prop built by the Vue extractor carries no default value. -/
theorem vueExtractProps_default_none {vt : Option (List VuePropMatch)}
    {vr : Option (List VueRuntimeMatch)} {p : PropDefinition}
    (hp : p ∈ vueExtractProps vt vr) : p.default_value = none := by
  unfold vueExtractProps at hp
  cases vr with
  | none =>
    cases vt with
    | none => simp at hp
    | some ms =>
      simp only at hp
      rw [List.mem_map] at hp
      obtain ⟨r, _, hr⟩ := hp
      rw [← hr]
  | some rms =>
    cases vt with
    | none =>
      simp only at hp
      split at hp
      · rw [List.mem_map] at hp
        obtain ⟨r, _, hr⟩ := hp
        rw [← hr]
      · simp at hp
    | some ms =>
      simp only at hp
      split at hp
      · rw [List.mem_map] at hp
        obtain ⟨r, _, hr⟩ := hp
        rw [← hr]
      · rw [List.mem_map] at hp
        obtain ⟨r, _, hr⟩ := hp
        rw [← hr]

/-- Claim C1: for every metadata input, `detect_variants` returns a
non-empty list in which every variant's priority is 1, 2 or 3, and the
fallback `Default` variant (empty args, priority 1) appears in the result
exactly when none of the four detection passes emitted any variant. -/
theorem detect_variants_nonempty_priorities_default_iff (md : MetadataDict) :
    detectVariants md ≠ [] ∧
    (∀ v, v ∈ detectVariants md →
      v.priority = 1 ∨ v.priority = 2 ∨ v.priority = 3) ∧
    (defaultVariant ∈ detectVariants md ↔ allPasses md = []) := by
  rw [detectVariants_eq]
  by_cases h : allPasses md = []
  · rw [if_pos h]
    refine ⟨?_, ?_, ?_⟩
    · intro hc
      have : defaultVariant ∈ ([] : List Variant) := by
        rw [← hc, mem_stableSortVariants]
        exact List.mem_singleton_self _
      simp at this
    · intro v hv
      rw [mem_stableSortVariants, List.mem_singleton] at hv
      subst hv
      exact Or.inl rfl
    · rw [mem_stableSortVariants]
      simp [h]
  · rw [if_neg h]
    obtain ⟨w, hw⟩ := List.exists_mem_of_ne_nil _ h
    refine ⟨?_, ?_, ?_⟩
    · intro hc
      have : w ∈ ([] : List Variant) := by
        rw [← hc, mem_stableSortVariants]
        exact hw
      simp at this
    · intro v hv
      rw [mem_stableSortVariants] at hv
      exact (mem_allPasses hv).1
    · rw [mem_stableSortVariants]
      constructor
      · intro hd
        exact absurd rfl (mem_allPasses hd).2
      · intro hd
        exact absurd hd h

/-- Witness for C1 at a component with no props: the passes emit nothing
and the result is exactly the `Default` fallback. -/
theorem detect_variants_nonempty_priorities_default_iff_example :
    detectVariants ⟨"X", "other", []⟩ ≠ [] ∧
    (defaultVariant.priority = 1 ∨ defaultVariant.priority = 2 ∨
      defaultVariant.priority = 3) ∧
    (defaultVariant ∈ detectVariants ⟨"X", "other", []⟩ ↔
      allPasses ⟨"X", "other", []⟩ = []) :=
  ⟨(detect_variants_nonempty_priorities_default_iff ⟨"X", "other", []⟩).1,
   (detect_variants_nonempty_priorities_default_iff ⟨"X", "other", []⟩).2.1
     defaultVariant (by decide),
   (detect_variants_nonempty_priorities_default_iff ⟨"X", "other", []⟩).2.2⟩

/-- Claim C2 (code bug): when the component parses but neither the
level-specific nor the basic fallback template exists, `generate_story`
still writes a file — the empty generated content — to the output path,
contrary to the specification's demand that the write happen only when the
generated text was produced without error. -/
theorem generate_story_writes_empty_file_when_template_missing :
    generateStory "Button.tsx" "" emptyPropMatches (fun _ => none) "full"
        (some "Button.stories.tsx") =
      (some "", [("Button.stories.tsx", "")]) := by decide

/-- Claim C3 counterexample: a `size` prop whose union type holds the two
small-family literals `sm` and `xs` makes the size pass emit two variants
named Small, refuting "exactly one Small variant". -/
theorem size_pass_duplicate_small_variants :
    (detectSizeVariants [sizeDupProp]).countP (fun v => v.name == "Small") = 2 ∧
    ¬ (detectSizeVariants [sizeDupProp]).countP
        (fun v => v.name == "Small") = 1 := by decide

/-- Claim C3 as amended: the size pass emits only priority-2 variants named
Small or Large (never a Medium/baseline variant), with exactly one Small
variant per small-family literal and one Large variant per large-family
literal of the qualifying props — so several small-family literals yield
several Small variants rather than a single collapsed one. -/
theorem size_pass_one_variant_per_literal (props : List PropDict) :
    (∀ v, v ∈ detectSizeVariants props →
      v.priority = 2 ∧ (v.name = "Small" ∨ v.name = "Large")) ∧
    (detectSizeVariants props).countP (fun v => v.name == "Small") =
      sizeSmallCount props ∧
    (detectSizeVariants props).countP (fun v => v.name == "Large") =
      sizeLargeCount props := by
  refine ⟨?_, ?_, ?_⟩
  · intro v hv
    rw [detectSizeVariants, List.mem_flatMap] at hv
    obtain ⟨p, _, hp⟩ := hv
    obtain ⟨h1, h2, _⟩ := mem_sizeVariantsOfProp hp
    exact ⟨h1, h2⟩
  · induction props with
    | nil => simp [detectSizeVariants, sizeSmallCount]
    | cons p t ih =>
      rw [detectSizeVariants, List.flatMap_cons, List.countP_append]
      rw [detectSizeVariants] at ih
      rw [ih, sizeVariantsOfProp_countSmall]
      simp [sizeSmallCount]
  · induction props with
    | nil => simp [detectSizeVariants, sizeLargeCount]
    | cons p t ih =>
      rw [detectSizeVariants, List.flatMap_cons, List.countP_append]
      rw [detectSizeVariants] at ih
      rw [ih, sizeVariantsOfProp_countLarge]
      simp [sizeLargeCount]

/-- Witness for the amended C3 at the duplicate-literal prop: both Small
variants are counted, one per literal. -/
theorem size_pass_one_variant_per_literal_example :
    (smallSmVariant.priority = 2 ∧
      (smallSmVariant.name = "Small" ∨ smallSmVariant.name = "Large")) ∧
    (detectSizeVariants [sizeDupProp]).countP (fun v => v.name == "Small") =
      sizeSmallCount [sizeDupProp] ∧
    (detectSizeVariants [sizeDupProp]).countP (fun v => v.name == "Large") =
      sizeLargeCount [sizeDupProp] :=
  ⟨(size_pass_one_variant_per_literal [sizeDupProp]).1 smallSmVariant (by decide),
   (size_pass_one_variant_per_literal [sizeDupProp]).2.1,
   (size_pass_one_variant_per_literal [sizeDupProp]).2.2⟩

/-- Claim C4: for every readable file of a supported extension, parsing
never raises — every failure of the embedded `parse_component`, including
the reachable `re.error` from the name-interpolated props regex, is the
`none` result the source's `except` clause produces; whenever metadata is
returned its name is non-empty; when the props scan does not raise,
metadata is in fact returned; and name extraction follows the ordered
rules — function rule, then const rule, then export-function rule —
falling back to the file's base name without extension only when none of
them matches. -/
theorem parse_supported_total_name_nonnull (path content : String)
    (pm : PropMatches)
    (hsupp : pyLower (pySuffix path) ∈
      [".tsx", ".jsx", ".ts", ".js", ".vue", ".svelte"]) :
    (pm.react.raises = false → (parseComponent path content pm).isSome = true) ∧
    (parseComponent path content pm).map ComponentMetadata.name ≠ some "" ∧
    extractComponentName content path =
      (((searchFunction content).or (searchConst content)).or
        (searchExportFunction content)).getD (pyStem path) := by
  have hsufne : pySuffix path ≠ "" := by
    intro h0
    rw [h0] at hsupp
    have : pyLower "" ∉ [".tsx", ".jsx", ".ts", ".js", ".vue", ".svelte"] := by
      decide
    exact this hsupp
  have hstem := pyStem_ne_empty hsufne
  have hchain : extractComponentName content path =
      (((searchFunction content).or (searchConst content)).or
        (searchExportFunction content)).getD (pyStem path) := by
    unfold extractComponentName
    cases searchFunction content <;> cases searchConst content <;>
      cases searchExportFunction content <;> rfl
  have hdisp := parseComponent_cases path content pm
  simp only [List.mem_cons, List.not_mem_nil, or_false] at hsupp
  refine ⟨?_, ?_, hchain⟩
  · intro hr
    rcases hsupp with h | h | h | h | h | h
    · rw [hdisp.1 (by rw [h]; decide)]
      exact reactParse_isSome_of_not_raises (extractComponentName_ne_empty hstem) hr
    · rw [hdisp.1 (by rw [h]; decide)]
      exact reactParse_isSome_of_not_raises (extractComponentName_ne_empty hstem) hr
    · rw [hdisp.1 (by rw [h]; decide)]
      exact reactParse_isSome_of_not_raises (extractComponentName_ne_empty hstem) hr
    · rw [hdisp.1 (by rw [h]; decide)]
      exact reactParse_isSome_of_not_raises (extractComponentName_ne_empty hstem) hr
    · rw [hdisp.2.1 h]; rfl
    · rw [hdisp.2.2.1 h]; rfl
  · rcases hsupp with h | h | h | h | h | h
    · rw [hdisp.1 (by rw [h]; decide)]
      exact reactParse_map_name_ne (extractComponentName_ne_empty hstem)
    · rw [hdisp.1 (by rw [h]; decide)]
      exact reactParse_map_name_ne (extractComponentName_ne_empty hstem)
    · rw [hdisp.1 (by rw [h]; decide)]
      exact reactParse_map_name_ne (extractComponentName_ne_empty hstem)
    · rw [hdisp.1 (by rw [h]; decide)]
      exact reactParse_map_name_ne (extractComponentName_ne_empty hstem)
    · rw [hdisp.2.1 h]
      intro hc
      exact hstem (Option.some.inj hc)
    · rw [hdisp.2.2.1 h]
      intro hc
      exact hstem (Option.some.inj hc)

/-- Witness for C4 at a `.tsx` file whose props scan does not raise and
whose content yields no name rule: the parse succeeds and the name falls
back to the nonempty stem. -/
theorem parse_supported_total_name_nonnull_example :
    pyLower (pySuffix "Button.tsx") ∈
      [".tsx", ".jsx", ".ts", ".js", ".vue", ".svelte"] ∧
    emptyPropMatches.react.raises = false ∧
    (parseComponent "Button.tsx" "" emptyPropMatches).isSome = true ∧
    (parseComponent "Button.tsx" "" emptyPropMatches).map
        ComponentMetadata.name ≠ some "" ∧
    extractComponentName "" "Button.tsx" =
      (((searchFunction "").or (searchConst "")).or
        (searchExportFunction "")).getD (pyStem "Button.tsx") :=
  ⟨by decide, by decide,
   (parse_supported_total_name_nonnull "Button.tsx" "" emptyPropMatches
     (by decide)).1 (by decide),
   (parse_supported_total_name_nonnull "Button.tsx" "" emptyPropMatches
     (by decide)).2.1,
   (parse_supported_total_name_nonnull "Button.tsx" "" emptyPropMatches
     (by decide)).2.2⟩

/-- Claim C5: for the button scenario — props `variant: 'primary' |
'secondary'` and `disabled: boolean` — the variant list contains Primary
and Secondary at priority 1 and Disabled at priority 2, has at least three
entries, and contains no variant named `Default`. -/
theorem button_scenario_variant_list :
    (⟨"Primary", "variant: primary", [("variant", ArgVal.str "primary")], 1⟩ : Variant)
      ∈ detectVariants buttonScenarioMd ∧
    (⟨"Secondary", "variant: secondary", [("variant", ArgVal.str "secondary")], 1⟩ : Variant)
      ∈ detectVariants buttonScenarioMd ∧
    (⟨"Disabled", "disabled state", [("disabled", ArgVal.bool true)], 2⟩ : Variant)
      ∈ detectVariants buttonScenarioMd ∧
    3 ≤ (detectVariants buttonScenarioMd).length ∧
    (detectVariants buttonScenarioMd).all (fun v => v.name ≠ "Default") := by
  decide

/-- Claim C6: `parse_component` selects the extraction strategy purely from
the lower-cased file extension — React for `.tsx`/`.jsx`/`.ts`/`.js`, Vue
for `.vue`, Svelte for `.svelte` — and any other extension yields failure
without attempting any parse. -/
theorem parse_component_dispatch_by_extension (path content : String)
    (pm : PropMatches) :
    (pyLower (pySuffix path) ∈ [".tsx", ".jsx", ".ts", ".js"] →
      parseComponent path content pm = reactParse path content pm.react) ∧
    (pyLower (pySuffix path) = ".vue" →
      parseComponent path content pm =
        some (vueParse path content pm.vueTyped pm.vueRuntime)) ∧
    (pyLower (pySuffix path) = ".svelte" →
      parseComponent path content pm = some (svelteParse path content pm.svelte)) ∧
    (pyLower (pySuffix path) ∉ [".tsx", ".jsx", ".ts", ".js", ".vue", ".svelte"] →
      parseComponent path content pm = none) :=
  parseComponent_cases path content pm

/-- Witness for C6 at an unsupported extension: the dispatch yields no
metadata. -/
theorem parse_component_dispatch_by_extension_example :
    pyLower (pySuffix "notes.txt") ∉
      [".tsx", ".jsx", ".ts", ".js", ".vue", ".svelte"] ∧
    parseComponent "notes.txt" "x" emptyPropMatches = none :=
  ⟨by decide,
   (parse_component_dispatch_by_extension "notes.txt" "x" emptyPropMatches).2.2.2
     (by decide)⟩

/-- Claim C7: every metadata record classified `modal`, whatever its props,
yields a priority-1 variant named Open whose args set `isOpen` to true. -/
theorem modal_always_gets_open_variant (name : String) (props : List PropDict) :
    (⟨"Open", "Modal in open state", [("isOpen", ArgVal.bool true)], 1⟩ : Variant)
      ∈ detectVariants ⟨name, "modal", props⟩ := by
  have hmem : (⟨"Open", "Modal in open state", [("isOpen", ArgVal.bool true)], 1⟩ : Variant)
      ∈ allPasses ⟨name, "modal", props⟩ := by
    unfold allPasses
    refine List.mem_append_right _ ?_
    show _ ∈ detectTypeSpecificVariants "modal" props
    have ht : detectTypeSpecificVariants "modal" props =
        [⟨"Open", "Modal in open state", [("isOpen", ArgVal.bool true)], 1⟩] := rfl
    rw [ht]
    exact List.mem_singleton_self _
  rw [detectVariants_eq, if_neg (List.ne_nil_of_mem hmem), mem_stableSortVariants]
  exact hmem

/-- Claim C8: the color name-hint rule sits before the plain string rule in
the ordered control-inference precedence, so every prop that matches
neither the boolean nor the numeric type rule and whose name contains a
color hint gets the color-picker control. -/
theorem infer_control_color_hint_before_text (p : PropDefinition)
    (h1 : containsSub "boolean" (pyLower p.type) = false)
    (h2 : containsSub "number" (pyLower p.type) = false)
    (h3 : (["color", "background", "bg", "fill", "stroke"].any
        (fun h => containsSub h (pyLower p.name))) = true) :
    inferControlType p = some "\x7b control: 'color' \x7d" := by
  simp only [inferControlType, h1, h2, h3]
  rfl

/-- Witness for C8 at `backgroundColor: string`: the inferred control is
the color picker, not free text. -/
theorem infer_control_color_hint_before_text_example :
    containsSub "boolean" (pyLower bgColorProp.type) = false ∧
    containsSub "number" (pyLower bgColorProp.type) = false ∧
    (["color", "background", "bg", "fill", "stroke"].any
      (fun h => containsSub h (pyLower bgColorProp.name))) = true ∧
    inferControlType bgColorProp = some "\x7b control: 'color' \x7d" :=
  ⟨by decide, by decide, by decide,
   infer_control_color_hint_before_text bgColorProp (by decide) (by decide)
     (by decide)⟩

/-- Claim C9: no prop produced by any of the three extractors carries an
explicit default value while being marked required. -/
theorem extracted_default_implies_optional (rm : Option (List ReactPropMatch))
    (vt : Option (List VuePropMatch)) (vr : Option (List VueRuntimeMatch))
    (sm : List SvelteMatch) (p : PropDefinition)
    (hp : p ∈ reactExtractProps rm ++ vueExtractProps vt vr ++ svelteExtractProps sm)
    (hd : p.default_value.isSome = true) :
    p.required = false := by
  rw [List.mem_append, List.mem_append] at hp
  rcases hp with (hp | hp) | hp
  · exfalso
    unfold reactExtractProps at hp
    cases rm with
    | none => simp at hp
    | some ms =>
      rw [List.mem_map] at hp
      obtain ⟨r, _, hr⟩ := hp
      rw [← hr] at hd
      simp at hd
  · exfalso
    rw [vueExtractProps_default_none hp] at hd
    simp at hd
  · unfold svelteExtractProps at hp
    rw [List.mem_map] at hp
    obtain ⟨r, _, hr⟩ := hp
    subst hr
    simp only at hd ⊢
    cases hD : svelteDefault r with
    | none => rw [hD] at hd; exact absurd hd (by simp)
    | some s => rfl

/-- Witness for C9 at a Svelte prop with an explicit default: the built
prop has the default set and is not required. -/
theorem extracted_default_implies_optional_example :
    ((⟨"label", "string", false, some "'hi'", none⟩ : PropDefinition) ∈
      reactExtractProps none ++ vueExtractProps none none ++
        svelteExtractProps [svelteExampleMatch]) ∧
    (⟨"label", "string", false, some "'hi'", none⟩ : PropDefinition).default_value.isSome
      = true ∧
    (⟨"label", "string", false, some "'hi'", none⟩ : PropDefinition).required = false :=
  ⟨by decide, by decide,
   extracted_default_implies_optional none none none [svelteExampleMatch]
     ⟨"label", "string", false, some "'hi'", none⟩ (by decide) (by decide)⟩

/-- Claim C10: the Vue and Svelte parsers set `exports_default` to true
unconditionally, for every path and every file content. -/
theorem vue_svelte_exports_default_always_true (path content : String)
    (vt : Option (List VuePropMatch)) (vr : Option (List VueRuntimeMatch))
    (sm : List SvelteMatch) :
    (vueParse path content vt vr).exports_default = true ∧
    (svelteParse path content sm).exports_default = true :=
  ⟨rfl, rfl⟩
